import Mathlib

/-!
Shallow embedding of the FakeMemory repository (`src/fake_memory.py`,
`src/helpers.py`).

Conventions of the embedding:
* Python integers are unbounded, so addresses, lengths and byte values are
  modelled as `Int` (this keeps `end = start + length - 1` exact even for
  `length = 0`, where Python produces `start - 1`).
* A `bytearray` is a `List Int`; slice assignment `ba[a:b] = vs` on a
  contiguous slice is `take a ++ vs ++ drop b`, which (like Python) may
  change the length of the array.
* Python exceptions are an explicit error type threaded through `Except`.
  `IOError` covers the out-of-range and no-such-address errors raised by the
  module itself; `ValueError` from a `bytearray` assignment of a value
  outside 0–255 is `ValueOutOfDomain`; `ValueError` from `add_range` is
  `RangeConflict`; `IndexError` (never caught by any handler in the source)
  is `IndexFault`; `NotImplementedError` is `UnsupportedRecordType`.
-/

/-- The exceptions raised by the source, tagged by the condition they report. -/
inductive MemError where
  | OutOfRange (address : Int)
  | ValueOutOfDomain
  | RangeConflict
  | NoSuchAddress (address : Int)
  | UnsupportedRecordType (rtype : String)
  | IndexFault (idx : Nat)
  | ParseFault
deriving DecidableEq

/-- Which of the errors are Python `IOError`s: `except IOError` handlers
(in `FakeMemoryUnit.read` and `FakeMemory._read_write_method`) catch exactly
these. -/
def MemError.isIOError : MemError → Bool
  | .OutOfRange _ => true
  | .NoSuchAddress _ => true
  | _ => false

/-- Source `helpers.CustomRange`: an inclusive integer interval `[start, stop]`. -/
structure CustomRange where
  start : Int
  stop : Int
deriving DecidableEq

/-- Source `CustomRange.__contains__`: `self.start <= item <= self.stop`. -/
def CustomRange.mem (r : CustomRange) (item : Int) : Bool :=
  decide (r.start ≤ item ∧ item ≤ r.stop)

/-- Source `FakeMemoryUnit`: a single continuous range of fake memory.
`_addr_start` and `length` are set at construction and never reassigned;
`_data` is the backing `bytearray`. -/
structure FakeMemoryUnit where
  addr_start : Int
  length : Int
  data : List Int
  description : String
deriving DecidableEq

/-- Source `FakeMemoryUnit.start`. -/
def FakeMemoryUnit.start (u : FakeMemoryUnit) : Int := u.addr_start

/-- Source `FakeMemoryUnit.end` (`end` is reserved in Lean): `start + length - 1`. -/
def FakeMemoryUnit.endAddr (u : FakeMemoryUnit) : Int :=
  u.start + u.length - 1

/-- Source `self.range`: stored once by `__init__` as
`CustomRange(self.start(), self.end())`; since `_addr_start` and `length`
are never reassigned, the stored value always equals this derived one. -/
def FakeMemoryUnit.range (u : FakeMemoryUnit) : CustomRange :=
  ⟨u.start, u.endAddr⟩

/-- Source `FakeMemoryUnit.clear`: `self._data = bytearray(self.length * '\x00')`.
Python's `n * s` is empty for `n <= 0`, which `Int.toNat` reproduces. -/
def FakeMemoryUnit.clear (u : FakeMemoryUnit) : FakeMemoryUnit :=
  { u with data := List.replicate u.length.toNat 0 }

/-- Source `FakeMemoryUnit.__init__`: records start/length/description and calls
`clear()` to allocate the zero-filled buffer. -/
def FakeMemoryUnit.init (addr_start length : Int) (description : String) :
    FakeMemoryUnit :=
  ⟨addr_start, length, List.replicate length.toNat 0, description⟩

/-- Source `FakeMemoryUnit._get_address`: the offset into `_data` of a bus address,
or `IOError("Address .. out of range.")`. -/
def FakeMemoryUnit.getAddress (u : FakeMemoryUnit) (address : Int) :
    Except MemError Int :=
  if u.range.mem address then .ok (address - u.start)
  else .error (.OutOfRange address)

/-- Source `FakeMemoryUnit.read`: `self._data[self._get_address(address)]` inside
`try .. except IOError`, returning `0x00` instead when `no_error` is set.
An `IndexError` from the subscript would not be an `IOError`, so it is not
suppressed (it is unreachable while the buffer is at least `length` long). -/
def FakeMemoryUnit.read (u : FakeMemoryUnit) (address : Int)
    (no_error : Bool) : Except MemError Int :=
  match u.getAddress address with
  | .error e => if no_error then .ok 0 else .error e
  | .ok a =>
    match u.data[a.toNat]? with
    | some v => .ok v
    | none => .error (.IndexFault a.toNat)

/-- Source `FakeMemoryUnit.read32`:
`[self.read(x, no_error) for x in range(address, address+32)]`. -/
def FakeMemoryUnit.read32 (u : FakeMemoryUnit) (address : Int)
    (no_error : Bool) : Except MemError (List Int) :=
  (List.range 32).mapM (fun i : Nat => u.read (address + (i : Int)) no_error)

/-- The block-read of `n` consecutive bytes performed the way `read32`
performs it (byte-by-byte via `read`); `read32` is the `n = 32` case. -/
def FakeMemoryUnit.readN (u : FakeMemoryUnit) (address : Int) (n : Nat)
    (no_error : Bool) : Except MemError (List Int) :=
  (List.range n).mapM (fun i : Nat => u.read (address + (i : Int)) no_error)

/-- The `value` argument of `write`: dispatched in the source by
`type(value) is list`. -/
inductive WriteVal where
  | byte (v : Int)
  | list (vs : List Int)
deriving DecidableEq

/-- Source `FakeMemoryUnit.write`: translates only the *starting* address through
`_get_address`, then either assigns one cell
(`self._data[address] = value`, which index-checks and then value-checks)
or assigns a slice (`self._data[address:address+len(value)] = value`, which
never index-faults but value-checks every byte, and which may grow the
buffer when the slice reaches past its end). `except (IOError, ValueError)`
suppresses those two error kinds when `no_error` is set; an `IndexError`
from the single-cell assignment would escape the handler. -/
def FakeMemoryUnit.write (u : FakeMemoryUnit) (address : Int)
    (value : WriteVal) (no_error : Bool) : Except MemError FakeMemoryUnit :=
  match u.getAddress address with
  | .error e => if no_error then .ok u else .error e
  | .ok a =>
    match value with
    | .list vs =>
      if vs.all (fun v => decide (0 ≤ v) && decide (v ≤ 255)) then
        .ok { u with
              data := u.data.take a.toNat ++ vs
                        ++ u.data.drop (a.toNat + vs.length) }
      else if no_error then .ok u else .error .ValueOutOfDomain
    | .byte v =>
      if a.toNat < u.data.length then
        if decide (0 ≤ v) && decide (v ≤ 255) then
          .ok { u with data := u.data.set a.toNat v }
        else if no_error then .ok u else .error .ValueOutOfDomain
      else .error (.IndexFault a.toNat)

/-- Source `FakeMemory`: the ordered collection of memory units (`self._mu`). -/
structure FakeMemory where
  mu : List FakeMemoryUnit
deriving DecidableEq

/-- Source `FakeMemory.__init__`: starts with no units. -/
def FakeMemory.empty : FakeMemory := ⟨[]⟩

/-- Python `list.insert(pos, x)` for `pos >= 0`: clamps `pos` to the length
and splices `x` in. -/
def pyInsert (l : List FakeMemoryUnit) (pos : Nat) (x : FakeMemoryUnit) :
    List FakeMemoryUnit :=
  l.take pos ++ x :: l.drop pos

/-- The first loop of `FakeMemory.add_range`: walk the existing units,
raising the overlap `ValueError` when the candidate's start or end lies in a
visited unit's range, and stopping at the first unit whose start exceeds the
candidate's start. Returns the insertion index `pos_idx`. -/
def FakeMemory.findInsertPos (new_mu : FakeMemoryUnit) :
    List FakeMemoryUnit → Except MemError Nat
  | [] => .ok 0
  | fmu :: rest =>
    if fmu.range.mem new_mu.start || fmu.range.mem new_mu.endAddr then
      .error .RangeConflict
    else if new_mu.start < fmu.start then
      .ok 0
    else
      match FakeMemory.findInsertPos new_mu rest with
      | .ok k => .ok (k + 1)
      | .error e => .error e

/-- Source `FakeMemory.add_range`: build the unit, find the insertion index, then
check `self._mu[pos_idx+1]` (when that index exists) for
`new_mu.end() >= next_mu.start()`, and insert at `pos_idx`. -/
def FakeMemory.add_range (m : FakeMemory) (addr_start length : Int)
    (description : String) : Except MemError FakeMemory :=
  let new_mu := FakeMemoryUnit.init addr_start length description
  match FakeMemory.findInsertPos new_mu m.mu with
  | .error e => .error e
  | .ok pos_idx =>
    match m.mu[pos_idx + 1]? with
    | some next_mu =>
      if next_mu.start ≤ new_mu.endAddr then .error .RangeConflict
      else .ok ⟨pyInsert m.mu pos_idx new_mu⟩
    | none => .ok ⟨pyInsert m.mu pos_idx new_mu⟩

/-- Source `FakeMemory._find_mu`: first unit whose range contains the address, or
`IOError("No adress .. in the ranges")`. -/
def FakeMemory.findMu (m : FakeMemory) (address : Int) :
    Except MemError FakeMemoryUnit :=
  match m.mu.find? (fun mu => mu.range.mem address) with
  | some mu => .ok mu
  | none => .error (.NoSuchAddress address)

/-- Source `FakeMemory.read` = `_read_write_method("read", ..)`: resolve the unit
and delegate, all inside `try .. except IOError`. When `no_error` is set and
an `IOError` was raised, the handler falls through and the method returns
`None` — hence the `Option` result, with `none` standing for Python `None`. -/
def FakeMemory.read (m : FakeMemory) (address : Int) (no_error : Bool) :
    Except MemError (Option Int) :=
  let r : Except MemError (Option Int) :=
    match m.findMu address with
    | .error e => .error e
    | .ok mu => (mu.read address no_error).map some
  match r with
  | .error e => if no_error && e.isIOError then .ok none else .error e
  | .ok v => .ok v

/-- Source `FakeMemory.read32` = `_read_write_method("read32", ..)`; same `None`
fall-through as `FakeMemory.read`. -/
def FakeMemory.read32 (m : FakeMemory) (address : Int) (no_error : Bool) :
    Except MemError (Option (List Int)) :=
  let r : Except MemError (Option (List Int)) :=
    match m.findMu address with
    | .error e => .error e
    | .ok mu => (mu.read32 address no_error).map some
  match r with
  | .error e => if no_error && e.isIOError then .ok none else .error e
  | .ok v => .ok v

/-- Source `FakeMemory.write` = `_read_write_method("write", ..)`: the located unit
is mutated in place in Python; here the updated unit is written back at the
index `_find_mu` located (`findIdx?` with `_find_mu`'s predicate). -/
def FakeMemory.write (m : FakeMemory) (address : Int) (value : WriteVal)
    (no_error : Bool) : Except MemError FakeMemory :=
  let r : Except MemError FakeMemory :=
    match m.mu.findIdx? (fun mu => mu.range.mem address) with
    | none => .error (.NoSuchAddress address)
    | some i =>
      match m.mu[i]? with
      | none => .error (.NoSuchAddress address)
      | some mu =>
        match mu.write address value no_error with
        | .ok mu' => .ok ⟨m.mu.set i mu'⟩
        | .error e => .error e
  match r with
  | .error e => if no_error && e.isIOError then .ok m else .error e
  | .ok m' => .ok m'

/-- Source `FakeMemory.clear`: clear every unit. -/
def FakeMemory.clear (m : FakeMemory) : FakeMemory :=
  ⟨m.mu.map FakeMemoryUnit.clear⟩

/-- One hexadecimal digit's value, as `int(_, 16)` accepts it. -/
def hexDigitVal (c : Char) : Option Nat :=
  if '0' ≤ c ∧ c ≤ '9' then some (c.toNat - '0'.toNat)
  else if 'a' ≤ c ∧ c ≤ 'f' then some (c.toNat - 'a'.toNat + 10)
  else if 'A' ≤ c ∧ c ≤ 'F' then some (c.toNat - 'A'.toNat + 10)
  else none

/-- Python `int(s, 16)` on a plain string of hex digits (the shape the
collaborator contract of the spec gives the address and data fields):
`none` models the `ValueError` on an empty or non-hex string. -/
def hexStringVal (cs : List Char) : Option Nat :=
  match cs with
  | [] => none
  | _ =>
    cs.foldl (fun acc c =>
      match acc, hexDigitVal c with
      | some n, some d => some (n * 16 + d)
      | _, _ => none) (some 0)

/-- Source `int(s, 16)` as used by `cmd_write_srec` on the address field. -/
def hexToInt (s : String) : Option Int :=
  (hexStringVal s.data).map Int.ofNat

/-- Source `helpers.chunker(seq, 2)`: split into chunks of two characters, the last
chunk possibly a single character. -/
def chunker2 : List Char → List (List Char)
  | [] => []
  | [c] => [[c]]
  | c1 :: c2 :: rest => [c1, c2] :: chunker2 rest

/-- Source `[int(x, 16) for x in helpers.chunker(data, 2)]`: the payload bytes of a
data record; `none` models the `ValueError` on a non-hex chunk. -/
def hexDecodeData (s : String) : Option (List Int) :=
  (chunker2 s.data).mapM (fun ch => (hexStringVal ch).map Int.ofNat)

/-- Modelled from the spec: the line-level transfer-format parser
(`srec_util.parse_srec`, an external collaborator not under `src/`) returns
the structured fields `{type, length, address, data, checksum}` of a record;
address and data are hex strings. The ingestor consumes this read-only. -/
structure ParsedSRec where
  rtype : String
  rlen : Int
  addr : String
  data : String
  chk : Int
deriving DecidableEq

/-- Source `FakeMemoryItf.cmd_write_srec`, with the two external collaborator calls
supplied as inputs: `rec` is the (successful) result of
`SRec.parse_srec(srec)` and `checksumValid` the result of
`SRec.validate_srec_checksum(srec.strip())`. The memory map `m` stands for
`self._m`; the function returns the map alongside the result, the map being
unchanged on every path that does not reach `self._m.write`. -/
def FakeMemoryItf.cmd_write_srec (m : FakeMemory) (rec : ParsedSRec)
    (checksumValid : Bool) : Except MemError Bool × FakeMemory :=
  match hexToInt rec.addr with
  | none => (.error .ParseFault, m)
  | some addr =>
    if !checksumValid then (.ok false, m)
    else if rec.rtype = "S0" then (.ok true, m)
    else if rec.rtype = "S3" then
      match hexDecodeData rec.data with
      | none => (.error .ParseFault, m)
      | some bytes =>
        match m.write addr (.list bytes) false with
        | .ok m' => (.ok true, m')
        | .error e => (.error e, m)
    else if rec.rtype = "S7" then (.ok true, m)
    else (.error (.UnsupportedRecordType rec.rtype), m)

/-- Source `FakeMemoryItf.cmd_erase_memory`: clear the map and report success. -/
def FakeMemoryItf.cmd_erase_memory (m : FakeMemory) : Bool × FakeMemory :=
  (true, m.clear)

/-- Adding a list of `(start, length)` ranges in order, each through
`add_range`; any failure propagates. -/
def addAll : FakeMemory → List (Int × Int) → Except MemError FakeMemory
  | m, [] => .ok m
  | m, (s, l) :: rest =>
    match m.add_range s l "" with
    | .ok m' => addAll m' rest
    | .error e => .error e

/-- The inclusive intervals `[p.1, p.1 + p.2 - 1]` and
`[q.1, q.1 + q.2 - 1]` of two `(start, length)` pairs are disjoint. -/
def pairDisj (p q : Int × Int) : Prop :=
  p.1 + p.2 - 1 < q.1 ∨ q.1 + q.2 - 1 < p.1

instance : DecidableRel pairDisj := by
  intro p q
  unfold pairDisj
  infer_instance

deriving instance DecidableEq for Except

/-- C1: the claim says `add_range` rejects every candidate whose inclusive
interval intersects an existing unit, including full containment of an
existing unit. The code checks only whether the candidate's start or end
falls inside a visited unit, and its follow-up check reads `_mu[pos_idx+1]`
instead of `_mu[pos_idx]`, so a candidate `[8, 47]` that strictly contains
the sole existing unit `[16, 31]` is accepted: the call returns
successfully and inserts the unit, leaving two overlapping units (16 and 31,
the existing unit's bounds, both lie in the new unit's range). -/
theorem c1_containment_overlap_accepted :
    FakeMemory.empty.add_range 16 16 "" = .ok ⟨[FakeMemoryUnit.init 16 16 ""]⟩ ∧
    (FakeMemory.mk [FakeMemoryUnit.init 16 16 ""]).add_range 8 40 "" =
      .ok ⟨[FakeMemoryUnit.init 8 40 "", FakeMemoryUnit.init 16 16 ""]⟩ ∧
    (FakeMemoryUnit.init 8 40 "").range.mem (FakeMemoryUnit.init 16 16 "").start = true ∧
    (FakeMemoryUnit.init 8 40 "").range.mem (FakeMemoryUnit.init 16 16 "").endAddr = true := by
  decide

/-- C2: the claim says a non-tolerant sequence write fails with OutOfRange
whenever any covered address is outside `[start, end]`, leaving the buffer
unchanged. The code range-checks only the starting address: on the unit
`[0, 1]`, writing the two bytes `[0x11, 0x22]` at address 1 covers
address 2, which is out of range, yet the write succeeds and mutates
(grows) the buffer. -/
theorem c2_overlong_write_accepted :
    (FakeMemoryUnit.init 0 2 "").write 1 (.list [17, 34]) false =
      .ok (FakeMemoryUnit.mk 0 2 [0, 17, 34] "") ∧
    (FakeMemoryUnit.init 0 2 "").range.mem 2 = false := by
  decide

/-- C3: the claim says `buffer.size() == length` holds after construction
and is preserved by every write. It holds after construction, but the
overlong sequence write of C2 grows the buffer: afterwards the buffer holds
3 bytes while `length` is still 2. -/
theorem c3_buffer_length_invariant_broken :
    (FakeMemoryUnit.init 0 2 "").data.length = (2 : Int).toNat ∧
    ((FakeMemoryUnit.init 0 2 "").write 1 (.list [17, 34]) false).map
        (fun u' => (u'.data.length, u'.length)) = .ok (3, 2) := by
  decide

/-- C4 counterexample: the claim says a tolerant `MemoryMap.read` at an
address contained in no unit returns the zero byte. On a map with the
single unit `[16, 17]`, the tolerant read at address 0 returns Python
`None` (the `except IOError` handler falls through without a `return`),
not the byte `0`. -/
theorem c4_tolerant_gap_read_returns_none :
    ∃ m, FakeMemory.empty.add_range 16 2 "" = .ok m ∧
      m.read 0 true = .ok none ∧ m.read 0 true ≠ .ok (some 0) :=
  ⟨⟨[FakeMemoryUnit.init 16 2 ""]⟩, by decide, by decide, by decide⟩

/-- C4 as amended: with `tolerant` set and no unit containing the address,
`MemoryMap.read` returns `None` (no value, rather than the zero byte),
`read32` likewise returns `None` (rather than zeroes), and `write` is a
no-op leaving every unit's buffer unchanged, instead of failing. -/
theorem c4_tolerant_gap_access_amended (m : FakeMemory) (address : Int)
    (v : WriteVal) (h : ∀ u ∈ m.mu, u.range.mem address = false) :
    m.read address true = .ok none ∧
    m.read32 address true = .ok none ∧
    m.write address v true = .ok m := by
  have hf : m.mu.find? (fun mu => mu.range.mem address) = none :=
    List.find?_eq_none.mpr (by intro x hx; simp [h x hx])
  have hfi : m.mu.findIdx? (fun mu => mu.range.mem address) = none :=
    List.findIdx?_eq_none_iff.mpr (by intro x hx; simp [h x hx])
  refine ⟨?_, ?_, ?_⟩
  · simp [FakeMemory.read, FakeMemory.findMu, hf, MemError.isIOError]
  · simp [FakeMemory.read32, FakeMemory.findMu, hf, MemError.isIOError]
  · simp [FakeMemory.write, hfi, MemError.isIOError]

/-- Witness for C4 as amended, on a map with the single unit `[16, 17]` and
the uncovered address 0. -/
theorem c4_tolerant_gap_access_amended_witness :
    (FakeMemory.mk [FakeMemoryUnit.init 16 2 ""]).read 0 true = .ok none ∧
    (FakeMemory.mk [FakeMemoryUnit.init 16 2 ""]).read32 0 true = .ok none ∧
    (FakeMemory.mk [FakeMemoryUnit.init 16 2 ""]).write 0 (.byte 5) true =
      .ok (FakeMemory.mk [FakeMemoryUnit.init 16 2 ""]) :=
  c4_tolerant_gap_access_amended (FakeMemory.mk [FakeMemoryUnit.init 16 2 ""])
    0 (.byte 5) (by decide)

/-- C6: if the checksum of a (parsed) record line does not validate,
`cmd_write_srec` returns `False` and the memory map is exactly the one it
was called with. The address field is assumed to be well-formed hex, since
`int(addr, 16)` runs before the checksum check. -/
theorem c6_bad_checksum_no_mutation (m : FakeMemory) (rec : ParsedSRec)
    (a : Int) (h : hexToInt rec.addr = some a) :
    FakeMemoryItf.cmd_write_srec m rec false = (.ok false, m) := by
  simp [FakeMemoryItf.cmd_write_srec, h]

/-- Witness for C6: the data record of the spec's concrete scenario with a
corrupted checksum, on a small two-byte map; nothing is written. -/
theorem c6_bad_checksum_no_mutation_witness :
    FakeMemoryItf.cmd_write_srec (FakeMemory.mk [FakeMemoryUnit.init 16 2 ""])
      ⟨"S3", 8, "10", "AABBCC", 0⟩ false =
      (.ok false, FakeMemory.mk [FakeMemoryUnit.init 16 2 ""]) :=
  c6_bad_checksum_no_mutation (FakeMemory.mk [FakeMemoryUnit.init 16 2 ""])
    ⟨"S3", 8, "10", "AABBCC", 0⟩ 16 (by decide)

/-- C7: a validated record whose type is none of S0 (header), S3 (data) or
S7 (terminator) makes `cmd_write_srec` fail with UnsupportedRecordType
naming that type, and the memory map is exactly the one it was called
with — no unit's buffer changes. -/
theorem c7_unsupported_record_type (m : FakeMemory) (rec : ParsedSRec)
    (a : Int) (h : hexToInt rec.addr = some a) (h0 : rec.rtype ≠ "S0")
    (h3 : rec.rtype ≠ "S3") (h7 : rec.rtype ≠ "S7") :
    FakeMemoryItf.cmd_write_srec m rec true =
      (.error (.UnsupportedRecordType rec.rtype), m) := by
  simp [FakeMemoryItf.cmd_write_srec, h, h0, h3, h7]

/-- Witness for C7: an `S5` record against a small map. -/
theorem c7_unsupported_record_type_witness :
    FakeMemoryItf.cmd_write_srec (FakeMemory.mk [FakeMemoryUnit.init 16 2 ""])
      ⟨"S5", 3, "10", "AABB", 0⟩ true =
      (.error (.UnsupportedRecordType "S5"),
        FakeMemory.mk [FakeMemoryUnit.init 16 2 ""]) :=
  c7_unsupported_record_type (FakeMemory.mk [FakeMemoryUnit.init 16 2 ""])
    ⟨"S5", 3, "10", "AABB", 0⟩ 16 (by decide) (by decide) (by decide)
    (by decide)

/-- C10: `add_range(start, 0)` on an empty map is not rejected: it
succeeds, inserting a unit whose `end()` is `start() - 1` and whose buffer
is empty, and every subsequent non-tolerant read on the map fails with
NoSuchAddress (the unit's inclusive range `[start, start-1]` contains no
address at all). -/
theorem c10_zero_length_range_accepted (start address : Int) :
    ∃ m, FakeMemory.empty.add_range start 0 "" = .ok m ∧
      m.mu = [FakeMemoryUnit.init start 0 ""] ∧
      (∀ u ∈ m.mu, u.endAddr = u.start - 1 ∧ u.data = []) ∧
      m.read address false = .error (.NoSuchAddress address) := by
  refine ⟨⟨[FakeMemoryUnit.init start 0 ""]⟩, rfl, rfl, ?_, ?_⟩
  · intro u hu
    simp only [List.mem_singleton] at hu
    subst hu
    refine ⟨?_, rfl⟩
    simp [FakeMemoryUnit.endAddr, FakeMemoryUnit.init, FakeMemoryUnit.start]
  · have hm : (FakeMemoryUnit.init start 0 "").range.mem address = false := by
      simp only [FakeMemoryUnit.range, CustomRange.mem, FakeMemoryUnit.init,
        FakeMemoryUnit.start, FakeMemoryUnit.endAddr, decide_eq_false_iff_not]
      omega
    simp [FakeMemory.read, FakeMemory.findMu, hm, MemError.isIOError]

theorem range_mem_true_iff (u : FakeMemoryUnit) (x : Int) :
    u.range.mem x = true ↔ (u.start ≤ x ∧ x ≤ u.endAddr) := by
  simp [FakeMemoryUnit.range, CustomRange.mem]

theorem range_mem_false_iff (u : FakeMemoryUnit) (x : Int) :
    u.range.mem x = false ↔ ¬(u.start ≤ x ∧ x ≤ u.endAddr) := by
  simp [FakeMemoryUnit.range, CustomRange.mem]

theorem getAddress_ok (u : FakeMemoryUnit) (address : Int)
    (h : u.range.mem address = true) :
    u.getAddress address = .ok (address - u.start) := by
  simp [FakeMemoryUnit.getAddress, h]

theorem getAddress_err (u : FakeMemoryUnit) (address : Int)
    (h : u.range.mem address = false) :
    u.getAddress address = .error (.OutOfRange address) := by
  simp [FakeMemoryUnit.getAddress, h]

theorem read_ok (u : FakeMemoryUnit) (address : Int) (no_error : Bool)
    (h : u.range.mem address = true)
    (hidx : (address - u.start).toNat < u.data.length) :
    u.read address no_error =
      .ok (u.data.get ⟨(address - u.start).toNat, hidx⟩) := by
  simp [FakeMemoryUnit.read, getAddress_ok u address h,
    List.getElem?_eq_getElem hidx, List.get_eq_getElem]

theorem read_err (u : FakeMemoryUnit) (address : Int)
    (h : u.range.mem address = false) :
    u.read address false = .error (.OutOfRange address) := by
  simp [FakeMemoryUnit.read, getAddress_err u address h]

theorem read_tolerant_zero (u : FakeMemoryUnit) (address : Int)
    (h : u.range.mem address = false) :
    u.read address true = .ok 0 := by
  simp [FakeMemoryUnit.read, getAddress_err u address h]

theorem read_of_getElem (u : FakeMemoryUnit) (address : Int)
    (no_error : Bool) (v : Int) (hmem : u.range.mem address = true)
    (hv : u.data[(address - u.start).toNat]? = some v) :
    u.read address no_error = .ok v := by
  simp [FakeMemoryUnit.read, getAddress_ok u address hmem, hv]

theorem mapM_map_eq (f : Nat → Except MemError Int) (g : Nat → Nat) :
    ∀ (l : List Nat), (l.map g).mapM f = l.mapM (fun i => f (g i))
  | [] => rfl
  | a :: l => by
    rw [List.map_cons, List.mapM_cons, List.mapM_cons, mapM_map_eq f g l]

theorem range_mapM_ok (f : Nat → Except MemError Int) :
    ∀ (vs : List Int),
      (∀ i, (h : i < vs.length) → f i = .ok (vs.get ⟨i, h⟩)) →
      (List.range vs.length).mapM f = .ok vs := by
  intro vs
  induction vs generalizing f with
  | nil => intro _; rfl
  | cons v vs ih =>
    intro h
    rw [List.length_cons, List.range_succ_eq_map, List.mapM_cons,
      mapM_map_eq f Nat.succ (List.range vs.length)]
    have h0 : f 0 = .ok v := h 0 (by simp)
    have hr : (List.range vs.length).mapM (fun i => f i.succ) = .ok vs := by
      apply ih
      intro i hi
      exact h (i + 1) (by simpa using Nat.succ_lt_succ hi)
    rw [h0, hr]
    rfl

theorem getElem?_mid (l₁ l₂ l₃ : List Int) (i : Nat) (h : i < l₂.length) :
    (l₁ ++ l₂ ++ l₃)[l₁.length + i]? = some (l₂.get ⟨i, h⟩) := by
  rw [List.append_assoc,
    List.getElem?_append_right (Nat.le_add_right l₁.length i)]
  simp only [Nat.add_sub_cancel_left]
  rw [List.getElem?_append_left h]
  simp [List.getElem?_eq_getElem h]

theorem write_list_ok (u : FakeMemoryUnit) (A : Int) (vs : List Int)
    (no_error : Bool) (hmem : u.range.mem A = true)
    (hvals : ∀ v ∈ vs, 0 ≤ v ∧ v ≤ 255) :
    u.write A (.list vs) no_error =
      .ok { u with data := u.data.take (A - u.start).toNat ++ vs
              ++ u.data.drop ((A - u.start).toNat + vs.length) } := by
  have hall : vs.all (fun v => decide (0 ≤ v) && decide (v ≤ 255)) = true := by
    simp only [List.all_eq_true, Bool.and_eq_true, decide_eq_true_eq]
    exact hvals
  simp [FakeMemoryUnit.write, getAddress_ok u A hmem, hall]

/-- C8: round trip inside one unit. For a unit spanning `[S, S+L-1]` (with
a well-formed buffer of `L` bytes), a byte sequence `vs` (each value in
0–255) and an address `A` with `[A, A + vs.length - 1]` fully inside the
unit, writing `vs` at `A` and then reading `vs.length` bytes starting at
`A` (byte-by-byte, the way `read32` reads) returns exactly `vs`. -/
theorem c8_write_read_roundtrip (S L A : Int) (data vs : List Int)
    (d : String) (hdata : data.length = L.toNat)
    (hvals : ∀ v ∈ vs, 0 ≤ v ∧ v ≤ 255) (hn : 1 ≤ vs.length)
    (hlo : S ≤ A) (hhi : A + vs.length ≤ S + L) :
    ((FakeMemoryUnit.mk S L data d).write A (.list vs) false).bind
      (fun u' => u'.readN A vs.length false) = .ok vs := by
  have hmemA : (FakeMemoryUnit.mk S L data d).range.mem A = true := by
    rw [range_mem_true_iff]
    show S ≤ A ∧ A ≤ S + L - 1
    omega
  rw [write_list_ok _ A vs false hmemA hvals]
  have hstart : (FakeMemoryUnit.mk S L data d).start = S := rfl
  rw [hstart]
  show FakeMemoryUnit.readN _ A vs.length false = .ok vs
  unfold FakeMemoryUnit.readN
  apply range_mapM_ok
  intro i hi
  have hk : ((A : Int) - S).toNat ≤ data.length := by omega
  have hlt : (data.take (A - S).toNat).length = (A - S).toNat := by
    rw [List.length_take]
    omega
  apply read_of_getElem
  · rw [range_mem_true_iff]
    show S ≤ A + i ∧ A + i ≤ S + L - 1
    omega
  · show (data.take (A - S).toNat ++ vs
        ++ data.drop ((A - S).toNat + vs.length))[((A + i : Int) - S).toNat]? = _
    rw [show ((A + i : Int) - S).toNat = (data.take (A - S).toNat).length + i by omega]
    exact getElem?_mid _ vs _ i hi

/-- Witness for C8: writing `[0xAA, 0xBB]` at address 17 of the unit
`[16, 19]` and reading two bytes back. -/
theorem c8_write_read_roundtrip_witness :
    ((FakeMemoryUnit.mk 16 4 [0, 0, 0, 0] "").write 17
        (.list [170, 187]) false).bind
      (fun u' => u'.readN 17 2 false) = .ok [170, 187] :=
  c8_write_read_roundtrip 16 4 17 [0, 0, 0, 0] [170, 187] "" (by decide)
    (by decide) (by decide) (by decide) (by decide)

/-- C9: for a unit spanning `[S, S+L-1]` with a well-formed buffer,
`translate` (`_get_address`) returns `address - S` exactly on
`S ≤ address ≤ S+L-1` and fails with OutOfRange otherwise; consequently
`read(S-1)` and `read(S+L)` fail OutOfRange non-tolerantly and return 0
tolerantly, while `read(S)` and `read(S+L-1)` succeed. -/
theorem c9_translate_and_boundary_reads (S L a : Int) (data : List Int)
    (d : String) (hL : 1 ≤ L) (hdata : data.length = L.toNat) :
    ((S ≤ a ∧ a ≤ S + L - 1) →
      (FakeMemoryUnit.mk S L data d).getAddress a = .ok (a - S)) ∧
    (¬(S ≤ a ∧ a ≤ S + L - 1) →
      (FakeMemoryUnit.mk S L data d).getAddress a =
        .error (.OutOfRange a)) ∧
    (FakeMemoryUnit.mk S L data d).read (S - 1) false =
      .error (.OutOfRange (S - 1)) ∧
    (FakeMemoryUnit.mk S L data d).read (S - 1) true = .ok 0 ∧
    (FakeMemoryUnit.mk S L data d).read (S + L) false =
      .error (.OutOfRange (S + L)) ∧
    (FakeMemoryUnit.mk S L data d).read (S + L) true = .ok 0 ∧
    (∃ v, (FakeMemoryUnit.mk S L data d).read S false = .ok v) ∧
    (∃ v, (FakeMemoryUnit.mk S L data d).read (S + L - 1) false = .ok v) := by
  have hstart : (FakeMemoryUnit.mk S L data d).start = S := rfl
  have hend : (FakeMemoryUnit.mk S L data d).endAddr = S + L - 1 := rfl
  have hmemt : ∀ x : Int, S ≤ x ∧ x ≤ S + L - 1 →
      (FakeMemoryUnit.mk S L data d).range.mem x = true := by
    intro x hx
    rw [range_mem_true_iff, hstart, hend]
    exact hx
  have hmemf : ∀ x : Int, ¬(S ≤ x ∧ x ≤ S + L - 1) →
      (FakeMemoryUnit.mk S L data d).range.mem x = false := by
    intro x hx
    rw [range_mem_false_iff, hstart, hend]
    exact hx
  refine ⟨?_, ?_, ?_, ?_, ?_, ?_, ?_, ?_⟩
  · intro h
    rw [getAddress_ok _ _ (hmemt a h), hstart]
  · intro h
    exact getAddress_err _ _ (hmemf a h)
  · exact read_err _ _ (hmemf _ (by omega))
  · exact read_tolerant_zero _ _ (hmemf _ (by omega))
  · exact read_err _ _ (hmemf _ (by omega))
  · exact read_tolerant_zero _ _ (hmemf _ (by omega))
  · have hidx : ((S : Int) - S).toNat < data.length := by omega
    exact ⟨_, read_ok _ S false (hmemt S (by omega)) hidx⟩
  · have hidx : ((S + L - 1 : Int) - S).toNat < data.length := by omega
    exact ⟨_, read_ok _ (S + L - 1) false (hmemt _ (by omega)) hidx⟩

/-- Witness for C9 on the unit `[16, 19]` and the in-range address 17. -/
theorem c9_translate_and_boundary_reads_witness :
    ((16 ≤ (17 : Int) ∧ (17 : Int) ≤ 16 + 4 - 1) →
      (FakeMemoryUnit.mk 16 4 [0, 0, 0, 0] "").getAddress 17 = .ok (17 - 16)) ∧
    (¬((16 : Int) ≤ 17 ∧ (17 : Int) ≤ 16 + 4 - 1) →
      (FakeMemoryUnit.mk 16 4 [0, 0, 0, 0] "").getAddress 17 =
        .error (.OutOfRange 17)) ∧
    (FakeMemoryUnit.mk 16 4 [0, 0, 0, 0] "").read (16 - 1) false =
      .error (.OutOfRange (16 - 1)) ∧
    (FakeMemoryUnit.mk 16 4 [0, 0, 0, 0] "").read (16 - 1) true = .ok 0 ∧
    (FakeMemoryUnit.mk 16 4 [0, 0, 0, 0] "").read (16 + 4) false =
      .error (.OutOfRange (16 + 4)) ∧
    (FakeMemoryUnit.mk 16 4 [0, 0, 0, 0] "").read (16 + 4) true = .ok 0 ∧
    (∃ v, (FakeMemoryUnit.mk 16 4 [0, 0, 0, 0] "").read 16 false = .ok v) ∧
    (∃ v, (FakeMemoryUnit.mk 16 4 [0, 0, 0, 0] "").read (16 + 4 - 1) false = .ok v) :=
  c9_translate_and_boundary_reads 16 4 17 [0, 0, 0, 0] "" (by decide) (by decide)

theorem findInsertPos_ok (n : FakeMemoryUnit) (hn : n.start ≤ n.endAddr) :
    ∀ (L : List FakeMemoryUnit),
      (∀ u ∈ L, u.start ≤ u.endAddr) →
      L.Pairwise (fun a b => a.endAddr < b.start) →
      (∀ u ∈ L, n.endAddr < u.start ∨ u.endAddr < n.start) →
      ∃ k, FakeMemory.findInsertPos n L = .ok k ∧ k ≤ L.length ∧
        (∀ u ∈ L.take k, u.endAddr < n.start) ∧
        (∀ u ∈ L.drop k, n.endAddr < u.start) := by
  intro L
  induction L with
  | nil =>
    intro _ _ _
    exact ⟨0, rfl, by simp, by simp, by simp⟩
  | cons u rest ih =>
    intro hg hp hd
    have hgu : u.start ≤ u.endAddr := hg u (by simp)
    have hdu : n.endAddr < u.start ∨ u.endAddr < n.start := hd u (by simp)
    have hmem1 : u.range.mem n.start = false := by
      rw [range_mem_false_iff]
      omega
    have hmem2 : u.range.mem n.endAddr = false := by
      rw [range_mem_false_iff]
      omega
    have hpr := List.pairwise_cons.mp hp
    by_cases hlt : n.start < u.start
    · refine ⟨0, ?_, by simp, by simp, ?_⟩
      · simp [FakeMemory.findInsertPos, hmem1, hmem2, hlt]
      · intro w hw
        simp only [List.drop_zero] at hw
        rcases List.mem_cons.mp hw with hwu | hwr
        · subst hwu
          omega
        · have h1 : u.endAddr < w.start := hpr.1 w hwr
          have h2 := hd w (by simp [hwr])
          have h3 := hg w (by simp [hwr])
          omega
    · have hue : u.endAddr < n.start := by omega
      have hd' : ∀ w ∈ rest, n.endAddr < w.start ∨ w.endAddr < n.start :=
        fun w hw => hd w (by simp [hw])
      have hg' : ∀ w ∈ rest, w.start ≤ w.endAddr :=
        fun w hw => hg w (by simp [hw])
      obtain ⟨k, hk, hkle, htake, hdrop⟩ := ih hg' hpr.2 hd'
      refine ⟨k + 1, ?_, by simp; omega, ?_, ?_⟩
      · simp [FakeMemory.findInsertPos, hmem1, hmem2, hlt, hk]
      · intro w hw
        rw [List.take_succ_cons] at hw
        rcases List.mem_cons.mp hw with hwu | hwr
        · subst hwu
          exact hue
        · exact htake w hwr
      · intro w hw
        rw [List.drop_succ_cons] at hw
        exact hdrop w hw

theorem add_range_ok (m : FakeMemory) (s l : Int) (d : String) (hl : 1 ≤ l)
    (hg : ∀ u ∈ m.mu, u.start ≤ u.endAddr)
    (hp : m.mu.Pairwise (fun a b => a.endAddr < b.start))
    (hd : ∀ u ∈ m.mu, s + l - 1 < u.start ∨ u.endAddr < s) :
    ∃ m', m.add_range s l d = .ok m' ∧
      (∀ u ∈ m'.mu, u ∈ m.mu ∨ u = FakeMemoryUnit.init s l d) ∧
      (∀ u ∈ m'.mu, u.start ≤ u.endAddr) ∧
      m'.mu.Pairwise (fun a b => a.endAddr < b.start) := by
  have hns : (FakeMemoryUnit.init s l d).start = s := rfl
  have hne : (FakeMemoryUnit.init s l d).endAddr = s + l - 1 := by
    simp [FakeMemoryUnit.init, FakeMemoryUnit.endAddr, FakeMemoryUnit.start]
  have hn : (FakeMemoryUnit.init s l d).start ≤ (FakeMemoryUnit.init s l d).endAddr := by
    rw [hns, hne]
    omega
  have hd' : ∀ u ∈ m.mu,
      (FakeMemoryUnit.init s l d).endAddr < u.start ∨
        u.endAddr < (FakeMemoryUnit.init s l d).start := by
    intro u hu
    rw [hne, hns]
    exact hd u hu
  obtain ⟨k, hk, hkle, htake, hdrop⟩ :=
    findInsertPos_ok (FakeMemoryUnit.init s l d) hn m.mu hg hp hd'
  have hmem_ins : ∀ u ∈ pyInsert m.mu k (FakeMemoryUnit.init s l d),
      u ∈ m.mu ∨ u = FakeMemoryUnit.init s l d := by
    intro u hu
    unfold pyInsert at hu
    rcases List.mem_append.mp hu with h1 | h2
    · exact .inl (List.mem_of_mem_take h1)
    · rcases List.mem_cons.mp h2 with h3 | h4
      · exact .inr h3
      · exact .inl (List.mem_of_mem_drop h4)
  have hg_ins : ∀ u ∈ pyInsert m.mu k (FakeMemoryUnit.init s l d),
      u.start ≤ u.endAddr := by
    intro u hu
    rcases hmem_ins u hu with h1 | h2
    · exact hg u h1
    · subst h2
      exact hn
  have hp2 : (m.mu.take k ++ m.mu.drop k).Pairwise
      (fun a b => a.endAddr < b.start) := by
    rw [List.take_append_drop]
    exact hp
  have hcross := (List.pairwise_append.mp hp2).2.2
  have hp_ins : (pyInsert m.mu k (FakeMemoryUnit.init s l d)).Pairwise
      (fun a b => a.endAddr < b.start) := by
    unfold pyInsert
    apply List.pairwise_append.mpr
    refine ⟨(List.pairwise_append.mp hp2).1, ?_, ?_⟩
    · apply List.pairwise_cons.mpr
      refine ⟨fun w hw => hdrop w hw, (List.pairwise_append.mp hp2).2.1⟩
    · intro a ha b hb
      rcases List.mem_cons.mp hb with hbn | hbd
      · subst hbn
        exact htake a ha
      · exact hcross a ha b hbd
  have heq : m.add_range s l d = .ok ⟨pyInsert m.mu k (FakeMemoryUnit.init s l d)⟩ := by
    simp only [FakeMemory.add_range, hk]
    cases hnx : m.mu[k + 1]? with
    | none => rfl
    | some next =>
      have hnext : (FakeMemoryUnit.init s l d).endAddr < next.start := by
        apply hdrop
        apply List.getElem?_mem (n := 1)
        rw [List.getElem?_drop]
        exact hnx
      show (if next.start ≤ (FakeMemoryUnit.init s l d).endAddr then
          (Except.error MemError.RangeConflict : Except MemError FakeMemory)
        else .ok ⟨pyInsert m.mu k (FakeMemoryUnit.init s l d)⟩) = _
      rw [if_neg (by omega)]
  exact ⟨⟨pyInsert m.mu k (FakeMemoryUnit.init s l d)⟩, heq, hmem_ins, hg_ins, hp_ins⟩

theorem addAll_ok :
    ∀ (ps : List (Int × Int)) (m : FakeMemory),
      (∀ p ∈ ps, 1 ≤ p.2) →
      ps.Pairwise pairDisj →
      (∀ u ∈ m.mu, u.start ≤ u.endAddr) →
      m.mu.Pairwise (fun a b => a.endAddr < b.start) →
      (∀ p ∈ ps, ∀ u ∈ m.mu, p.1 + p.2 - 1 < u.start ∨ u.endAddr < p.1) →
      ∃ m', addAll m ps = .ok m' ∧
        (∀ u ∈ m'.mu, u.start ≤ u.endAddr) ∧
        m'.mu.Pairwise (fun a b => a.endAddr < b.start) := by
  intro ps
  induction ps with
  | nil =>
    intro m _ _ hg hp _
    exact ⟨m, rfl, hg, hp⟩
  | cons p rest ih =>
    rcases p with ⟨s, l⟩
    intro m hlen hdisj hg hp hsep
    obtain ⟨m1, heq, hmem, hg1, hp1⟩ :=
      add_range_ok m s l "" (hlen (s, l) (by simp)) hg hp
        (hsep (s, l) (by simp))
    have hdisj_head : ∀ q ∈ rest, pairDisj (s, l) q :=
      (List.pairwise_cons.mp hdisj).1
    have hsep' : ∀ q ∈ rest, ∀ u ∈ m1.mu,
        q.1 + q.2 - 1 < u.start ∨ u.endAddr < q.1 := by
      intro q hq u hu
      rcases hmem u hu with hold | hnew
      · exact hsep q (by simp [hq]) u hold
      · subst hnew
        have hpd := hdisj_head q hq
        have hs : (FakeMemoryUnit.init s l "").start = s := rfl
        have he : (FakeMemoryUnit.init s l "").endAddr = s + l - 1 := by
          simp [FakeMemoryUnit.init, FakeMemoryUnit.endAddr,
            FakeMemoryUnit.start]
        rw [hs, he]
        unfold pairDisj at hpd
        simp only at hpd
        omega
    obtain ⟨m', heq', hg', hp'⟩ :=
      ih m1 (fun q hq => hlen q (by simp [hq]))
        (List.pairwise_cons.mp hdisj).2 hg1 hp1 hsep'
    refine ⟨m', ?_, hg', hp'⟩
    show addAll m ((s, l) :: rest) = .ok m'
    simp only [addAll, heq]
    exact heq'

/-- C5: inserting any finite list of `(start, length)` pairs (positive
lengths, pairwise disjoint inclusive intervals) into an initially empty
map makes every `add_range` call succeed (a single failure would
propagate through `addAll`), and afterwards the unit list is sorted
strictly ascending by start with `units[i].end < units[i+1].start` for
every adjacent pair. -/
theorem c5_disjoint_insertions_sorted (ps : List (Int × Int))
    (hlen : ∀ p ∈ ps, 1 ≤ p.2) (hdisj : ps.Pairwise pairDisj) :
    ∃ m, addAll FakeMemory.empty ps = .ok m ∧
      m.mu.Chain' (fun a b => a.start < b.start) ∧
      m.mu.Chain' (fun a b => a.endAddr < b.start) := by
  obtain ⟨m, heq, hg, hp⟩ :=
    addAll_ok ps FakeMemory.empty hlen hdisj (by simp [FakeMemory.empty])
      (by simp [FakeMemory.empty]) (by simp [FakeMemory.empty])
  refine ⟨m, heq, ?_, hp.chain'⟩
  have hlt : m.mu.Pairwise (fun a b => a.start < b.start) :=
    hp.imp_of_mem (fun ha _ hr => lt_of_le_of_lt (hg _ ha) hr)
  exact hlt.chain'

/-- Witness for C5: the spec's two-unit scenario `[0x10,0x1F]`, `[0x50,0x59]`
with `[0x20,0x49]` inserted between them, given out of order. -/
theorem c5_disjoint_insertions_sorted_witness :
    ∃ m, addAll FakeMemory.empty [(80, 10), (16, 16), (32, 42)] = .ok m ∧
      m.mu.Chain' (fun a b => a.start < b.start) ∧
      m.mu.Chain' (fun a b => a.endAddr < b.start) :=
  c5_disjoint_insertions_sorted [(80, 10), (16, 16), (32, 42)]
    (by decide) (by decide)
